import Mathlib

/-!
Verification of the TelegramGroupie secure message archive.

The development shallowly embeds the in-repository implementations:
  * `mock_encryption.py` / `implementations/test.py` — the base64-based
    envelope encryption used by the test stack (`encrypt_message`,
    `decrypt_message`);
  * `mock_firestore.py` and `implementations/test.py` — the in-memory
    document store (`MockQuery.stream`, `TestDatabaseQuery.stream`,
    `MockCollection.document`, `MockDocument.exists`);
  * `main.py` / `main_simplified.py` — the retrieval glue
    (`process_docs` / the body of `get_messages`).

Python strings are represented as lists of Unicode code points
(`PyStr := List Nat`); Python `bytes` as lists of byte values.
-/

namespace TG

/-- A Python string, as its sequence of Unicode code points. -/
abbrev PyStr : Type := List Nat

/-- Code points of a Lean string literal (used to embed Python string literals). -/
def pyOfString (s : String) : PyStr := s.data.map Char.toNat

/-- A valid Unicode scalar value: in range and not a UTF-16 surrogate.
Python `str.encode("utf-8")` succeeds exactly on strings of such code points. -/
def ValidCp (n : Nat) : Prop := n < 1114112 ∧ ¬(55296 ≤ n ∧ n < 57344)

instance (n : Nat) : Decidable (ValidCp n) := by unfold ValidCp; infer_instance

/-- A string all of whose code points are valid Unicode scalar values. -/
def ValidStr (s : PyStr) : Prop := ∀ c ∈ s, ValidCp c

instance (s : PyStr) : Decidable (ValidStr s) := by
  unfold ValidStr; exact List.decidableBAll _ s

/-! ## Base64 (Python `base64.b64encode` / `b64decode`)

Bytes and base64 characters are both `Nat` (byte values / ASCII codes). -/

/-- The standard base64 alphabet: sextet value to ASCII code. -/
def b64CharOf (n : Nat) : Nat :=
  if n < 26 then 65 + n
  else if n < 52 then 71 + n
  else if n < 62 then n - 4
  else if n = 62 then 43
  else 47

/-- Inverse of the base64 alphabet: ASCII code to sextet value, `none` for
characters outside the alphabet (including the pad character). -/
def b64IndexOf (c : Nat) : Option Nat :=
  if 65 ≤ c ∧ c ≤ 90 then some (c - 65)
  else if 97 ≤ c ∧ c ≤ 122 then some (c - 71)
  else if 48 ≤ c ∧ c ≤ 57 then some (c + 4)
  else if c = 43 then some 62
  else if c = 47 then some 63
  else none

/-- Membership test for base64 text characters: alphabet or the pad `=`. -/
def b64Keep (c : Nat) : Bool := (b64IndexOf c).isSome || c = 61

/-- `base64.b64encode`: bytes to the ASCII codes of the base64 text,
padding the final group with `=` (ASCII 61). -/
def b64encode : List Nat → List Nat
  | [] => []
  | [a] => [b64CharOf (a / 4), b64CharOf (a % 4 * 16), 61, 61]
  | [a, b] => [b64CharOf (a / 4), b64CharOf (a % 4 * 16 + b / 16),
               b64CharOf (b % 16 * 4), 61]
  | a :: b :: c :: rest =>
      b64CharOf (a / 4) :: b64CharOf (a % 4 * 16 + b / 16) ::
      b64CharOf (b % 16 * 4 + c / 64) :: b64CharOf (c % 64) ::
      b64encode rest

/-- Decode a base64 text already stripped of foreign characters, as groups of
four; `=` padding may close the final group. `none` on bad padding. -/
def b64Quads : List Nat → Option (List Nat)
  | [] => some []
  | c1 :: c2 :: c3 :: c4 :: rest =>
      match b64IndexOf c1, b64IndexOf c2 with
      | some n1, some n2 =>
          if c3 = 61 then
            if c4 = 61 ∧ rest = [] then some [n1 * 4 + n2 / 16] else none
          else
            match b64IndexOf c3 with
            | some n3 =>
                if c4 = 61 then
                  if rest = [] then
                    some [n1 * 4 + n2 / 16, n2 % 16 * 16 + n3 / 4]
                  else none
                else
                  match b64IndexOf c4 with
                  | some n4 =>
                      (b64Quads rest).map
                        (fun t => (n1 * 4 + n2 / 16) :: (n2 % 16 * 16 + n3 / 4) ::
                                  (n3 % 4 * 64 + n4) :: t)
                  | none => none
            | none => none
      | _, _ => none
  | _ => none

/-- `base64.b64decode` (default `validate=False`): characters outside the
alphabet and the pad are discarded, then the text is decoded in groups of
four; `none` models the `binascii.Error` raised on incorrect padding. -/
def b64decode (s : List Nat) : Option (List Nat) :=
  b64Quads (s.filter b64Keep)

theorem b64IndexOf_b64CharOf : ∀ n < 64, b64IndexOf (b64CharOf n) = some n := by
  decide

theorem b64CharOf_kept : ∀ n < 64, b64Keep (b64CharOf n) = true := by
  decide

theorem b64CharOf_ne_pad : ∀ n < 64, ¬(b64CharOf n = 61) := by
  decide

theorem pad_kept : b64Keep 61 = true := by decide

theorem b64encode_all_kept (bs : List Nat) (hb : ∀ x ∈ bs, x < 256) :
    ∀ c ∈ b64encode bs, b64Keep c = true := by
  match bs with
  | [] => intro c hc; simp [b64encode] at hc
  | [a] =>
      have ha : a < 256 := hb a (by simp)
      intro c hc
      simp only [b64encode, List.mem_cons, List.not_mem_nil, or_false] at hc
      rcases hc with h | h | h | h
      · exact h ▸ b64CharOf_kept (a / 4) (by omega)
      · exact h ▸ b64CharOf_kept (a % 4 * 16) (by omega)
      · exact h ▸ pad_kept
      · exact h ▸ pad_kept
  | [a, b] =>
      have ha : a < 256 := hb a (by simp)
      have hbb : b < 256 := hb b (by simp)
      intro c hc
      simp only [b64encode, List.mem_cons, List.not_mem_nil, or_false] at hc
      rcases hc with h | h | h | h
      · exact h ▸ b64CharOf_kept (a / 4) (by omega)
      · exact h ▸ b64CharOf_kept (a % 4 * 16 + b / 16) (by omega)
      · exact h ▸ b64CharOf_kept (b % 16 * 4) (by omega)
      · exact h ▸ pad_kept
  | a :: b :: c :: d :: rest =>
      have ha : a < 256 := hb a (by simp)
      have hbb : b < 256 := hb b (by simp)
      have hc' : c < 256 := hb c (by simp)
      intro x hx
      simp only [b64encode, List.mem_cons] at hx
      rcases hx with h | h | h | h | h
      · exact h ▸ b64CharOf_kept (a / 4) (by omega)
      · exact h ▸ b64CharOf_kept (a % 4 * 16 + b / 16) (by omega)
      · exact h ▸ b64CharOf_kept (b % 16 * 4 + c / 64) (by omega)
      · exact h ▸ b64CharOf_kept (c % 64) (by omega)
      · exact b64encode_all_kept (d :: rest) (fun y hy => hb y (by simp_all)) x h
  | [a, b, c] =>
      have ha : a < 256 := hb a (by simp)
      have hbb : b < 256 := hb b (by simp)
      have hc' : c < 256 := hb c (by simp)
      intro x hx
      simp only [b64encode, List.mem_cons, List.not_mem_nil, or_false] at hx
      rcases hx with h | h | h | h
      · exact h ▸ b64CharOf_kept (a / 4) (by omega)
      · exact h ▸ b64CharOf_kept (a % 4 * 16 + b / 16) (by omega)
      · exact h ▸ b64CharOf_kept (b % 16 * 4 + c / 64) (by omega)
      · exact h ▸ b64CharOf_kept (c % 64) (by omega)

theorem b64encode_filter (bs : List Nat) (hb : ∀ x ∈ bs, x < 256) :
    (b64encode bs).filter b64Keep = b64encode bs :=
  List.filter_eq_self.mpr (b64encode_all_kept bs hb)

theorem b64Quads_b64encode (bs : List Nat) (hb : ∀ x ∈ bs, x < 256) :
    b64Quads (b64encode bs) = some bs := by
  match bs with
  | [] => simp [b64encode, b64Quads]
  | [a] =>
      have ha : a < 256 := hb a (by simp)
      have e1 := b64IndexOf_b64CharOf (a / 4) (by omega)
      have e2 := b64IndexOf_b64CharOf (a % 4 * 16) (by omega)
      simp [b64encode, b64Quads, e1, e2]
      omega
  | [a, b] =>
      have ha : a < 256 := hb a (by simp)
      have hbb : b < 256 := hb b (by simp)
      have e1 := b64IndexOf_b64CharOf (a / 4) (by omega)
      have e2 := b64IndexOf_b64CharOf (a % 4 * 16 + b / 16) (by omega)
      have e3 := b64IndexOf_b64CharOf (b % 16 * 4) (by omega)
      have ne3 := b64CharOf_ne_pad (b % 16 * 4) (by omega)
      simp [b64encode, b64Quads, e1, e2, e3, ne3]
      omega
  | [a, b, c] =>
      have ha : a < 256 := hb a (by simp)
      have hbb : b < 256 := hb b (by simp)
      have hc : c < 256 := hb c (by simp)
      have e1 := b64IndexOf_b64CharOf (a / 4) (by omega)
      have e2 := b64IndexOf_b64CharOf (a % 4 * 16 + b / 16) (by omega)
      have e3 := b64IndexOf_b64CharOf (b % 16 * 4 + c / 64) (by omega)
      have e4 := b64IndexOf_b64CharOf (c % 64) (by omega)
      have ne3 := b64CharOf_ne_pad (b % 16 * 4 + c / 64) (by omega)
      have ne4 := b64CharOf_ne_pad (c % 64) (by omega)
      simp [b64encode, b64Quads, e1, e2, e3, e4, ne3, ne4]
      omega
  | a :: b :: c :: d :: rest =>
      have ha : a < 256 := hb a (by simp)
      have hbb : b < 256 := hb b (by simp)
      have hc : c < 256 := hb c (by simp)
      have e1 := b64IndexOf_b64CharOf (a / 4) (by omega)
      have e2 := b64IndexOf_b64CharOf (a % 4 * 16 + b / 16) (by omega)
      have e3 := b64IndexOf_b64CharOf (b % 16 * 4 + c / 64) (by omega)
      have e4 := b64IndexOf_b64CharOf (c % 64) (by omega)
      have ne3 := b64CharOf_ne_pad (b % 16 * 4 + c / 64) (by omega)
      have ne4 := b64CharOf_ne_pad (c % 64) (by omega)
      have ih : b64Quads (b64encode (d :: rest)) = some (d :: rest) :=
        b64Quads_b64encode (d :: rest) (fun x hx => hb x (by simp_all))
      simp [b64encode, b64Quads, e1, e2, e3, e4, ne3, ne4, ih]
      omega

/-- Round trip of the base64 layer on byte inputs. -/
theorem b64decode_b64encode (bs : List Nat) (hb : ∀ x ∈ bs, x < 256) :
    b64decode (b64encode bs) = some bs := by
  unfold b64decode
  rw [b64encode_filter bs hb, b64Quads_b64encode bs hb]


/-! ## UTF-8 (Python `str.encode("utf-8")` / `bytes.decode("utf-8")`) -/

/-- UTF-8 bytes of one Unicode scalar value. -/
def utf8EncodeChar (n : Nat) : List Nat :=
  if n < 128 then [n]
  else if n < 2048 then [192 + n / 64, 128 + n % 64]
  else if n < 65536 then [224 + n / 4096, 128 + n / 64 % 64, 128 + n % 64]
  else [240 + n / 262144, 128 + n / 4096 % 64, 128 + n / 64 % 64, 128 + n % 64]

/-- `str.encode("utf-8")`: code points to bytes. -/
def utf8Encode : PyStr → List Nat
  | [] => []
  | c :: cs => utf8EncodeChar c ++ utf8Encode cs

/-- A UTF-8 continuation byte. -/
def utf8Cont (b : Nat) : Prop := 128 ≤ b ∧ b < 192

instance (b : Nat) : Decidable (utf8Cont b) := by unfold utf8Cont; infer_instance

/-- Decode the tail of a two-byte UTF-8 sequence with lead byte `b`. -/
def utf8Dec2 (b : Nat) : List Nat → Option (Nat × List Nat)
  | c1 :: r =>
      if utf8Cont c1 then some ((b - 192) * 64 + (c1 - 128), r) else none
  | [] => none

/-- Decode the tail of a three-byte UTF-8 sequence with lead byte `b`,
rejecting overlong forms and surrogates. -/
def utf8Dec3 (b : Nat) : List Nat → Option (Nat × List Nat)
  | c1 :: c2 :: r =>
      if utf8Cont c1 ∧ utf8Cont c2 then
        let n := (b - 224) * 4096 + (c1 - 128) * 64 + (c2 - 128)
        if 2048 ≤ n ∧ ¬(55296 ≤ n ∧ n < 57344) then some (n, r) else none
      else none
  | _ => none

/-- Decode the tail of a four-byte UTF-8 sequence with lead byte `b`,
rejecting overlong and out-of-range forms. -/
def utf8Dec4 (b : Nat) : List Nat → Option (Nat × List Nat)
  | c1 :: c2 :: c3 :: r =>
      if utf8Cont c1 ∧ utf8Cont c2 ∧ utf8Cont c3 then
        let n := (b - 240) * 262144 + (c1 - 128) * 4096 +
                 (c2 - 128) * 64 + (c3 - 128)
        if 65536 ≤ n ∧ n < 1114112 then some (n, r) else none
      else none
  | _ => none

/-- Decode one UTF-8 character from the front of a byte list:
the code point and the remaining bytes, or `none` on malformed input. -/
def utf8DecodeChar : List Nat → Option (Nat × List Nat)
  | [] => none
  | b :: rest =>
      if b < 128 then some (b, rest)
      else if b < 194 then none
      else if b < 224 then utf8Dec2 b rest
      else if b < 240 then utf8Dec3 b rest
      else if b < 245 then utf8Dec4 b rest
      else none

/-- Fueled decoding loop; the fuel only bounds the recursion and is
sufficient whenever it is at least the byte count. -/
def utf8DecodeAux : Nat → List Nat → Option PyStr
  | _, [] => some []
  | 0, _ :: _ => none
  | fuel + 1, b :: rest =>
      match utf8DecodeChar (b :: rest) with
      | some (c, r) => (utf8DecodeAux fuel r).map (fun t => c :: t)
      | none => none

/-- `bytes.decode("utf-8")` (strict): bytes to code points, `none` models the
`UnicodeDecodeError` raised on malformed input. -/
def utf8Decode (bs : List Nat) : Option PyStr := utf8DecodeAux bs.length bs

theorem utf8EncodeChar_ne_nil (c : Nat) : utf8EncodeChar c ≠ [] := by
  unfold utf8EncodeChar
  split_ifs <;> simp

theorem utf8DecodeChar_encodeChar (c : Nat) (hc : ValidCp c) (t : List Nat) :
    utf8DecodeChar (utf8EncodeChar c ++ t) = some (c, t) := by
  obtain ⟨hlt, hsur⟩ := hc
  by_cases h1 : c < 128
  · have e : utf8EncodeChar c = [c] := by simp [utf8EncodeChar, h1]
    rw [e]
    simp only [List.cons_append, List.nil_append, utf8DecodeChar]
    rw [if_pos h1]
  · by_cases h2 : c < 2048
    · have e : utf8EncodeChar c = [192 + c / 64, 128 + c % 64] := by
        simp [utf8EncodeChar, h1, h2]
      rw [e]
      simp only [List.cons_append, List.nil_append, utf8DecodeChar]
      rw [if_neg (by omega), if_neg (by omega), if_pos (by omega)]
      simp only [utf8Dec2]
      rw [if_pos (by unfold utf8Cont; omega)]
      have hv : (192 + c / 64 - 192) * 64 + (128 + c % 64 - 128) = c := by omega
      rw [hv]
    · by_cases h3 : c < 65536
      · have e : utf8EncodeChar c
            = [224 + c / 4096, 128 + c / 64 % 64, 128 + c % 64] := by
          simp [utf8EncodeChar, h1, h2, h3]
        rw [e]
        simp only [List.cons_append, List.nil_append, utf8DecodeChar]
        rw [if_neg (by omega), if_neg (by omega), if_neg (by omega),
            if_pos (by omega)]
        simp only [utf8Dec3]
        rw [if_pos (by unfold utf8Cont; omega)]
        have hv : (224 + c / 4096 - 224) * 4096 + (128 + c / 64 % 64 - 128) * 64
            + (128 + c % 64 - 128) = c := by omega
        simp only [hv]
        rw [if_pos (by constructor <;> omega)]
      · have e : utf8EncodeChar c
            = [240 + c / 262144, 128 + c / 4096 % 64,
               128 + c / 64 % 64, 128 + c % 64] := by
          simp [utf8EncodeChar, h1, h2, h3]
        rw [e]
        simp only [List.cons_append, List.nil_append, utf8DecodeChar]
        rw [if_neg (by omega), if_neg (by omega), if_neg (by omega),
            if_neg (by omega), if_pos (by omega)]
        simp only [utf8Dec4]
        rw [if_pos (by unfold utf8Cont; omega)]
        have hv : (240 + c / 262144 - 240) * 262144 + (128 + c / 4096 % 64 - 128) * 4096
            + (128 + c / 64 % 64 - 128) * 64 + (128 + c % 64 - 128) = c := by omega
        simp only [hv]
        rw [if_pos (by constructor <;> omega)]

theorem utf8DecodeAux_encode (s : PyStr) (hs : ValidStr s) :
    ∀ fuel, (utf8Encode s).length ≤ fuel →
      utf8DecodeAux fuel (utf8Encode s) = some s := by
  match s with
  | [] =>
      intro fuel _
      cases fuel <;> simp [utf8Encode, utf8DecodeAux]
  | c :: cs =>
      intro fuel hf
      have hc : ValidCp c := hs c (by simp)
      have ih := utf8DecodeAux_encode cs (fun x hx => hs x (by simp [hx]))
      have hstep := utf8DecodeChar_encodeChar c hc (utf8Encode cs)
      have henc : utf8Encode (c :: cs) = utf8EncodeChar c ++ utf8Encode cs := rfl
      obtain ⟨hd, tl, e⟩ : ∃ hd tl, utf8EncodeChar c = hd :: tl := by
        cases h : utf8EncodeChar c with
        | nil => exact absurd h (utf8EncodeChar_ne_nil c)
        | cons hd tl => exact ⟨hd, tl, rfl⟩
      rw [henc, e, List.cons_append]
      rw [e, List.cons_append] at hstep
      have hlen : (utf8Encode (c :: cs)).length ≤ fuel := hf
      rw [henc, e] at hlen
      simp only [List.length_append, List.length_cons] at hlen
      cases fuel with
      | zero => omega
      | succ f =>
          simp only [utf8DecodeAux, hstep]
          rw [ih f (by omega)]
          rfl

/-- Round trip of the UTF-8 layer on valid code-point sequences. -/
theorem utf8Decode_utf8Encode (s : PyStr) (hs : ValidStr s) :
    utf8Decode (utf8Encode s) = some s :=
  utf8DecodeAux_encode s hs _ (Nat.le_refl _)

/-- Bytes produced by the UTF-8 encoder are bytes. -/
theorem utf8Encode_lt_256 (s : PyStr) (hs : ValidStr s) :
    ∀ x ∈ utf8Encode s, x < 256 := by
  match s with
  | [] => intro x hx; simp [utf8Encode] at hx
  | c :: cs =>
      have hc : ValidCp c := hs c (by simp)
      obtain ⟨hlt, _⟩ := hc
      intro x hx
      simp only [utf8Encode, List.mem_append] at hx
      rcases hx with h | h
      · unfold utf8EncodeChar at h
        split_ifs at h <;> simp_all <;> omega
      · exact utf8Encode_lt_256 cs (fun y hy => hs y (by simp [hy])) x h


/-! ## Auxiliary facts connecting the two layers -/

theorem b64Keep_lt_128 (c : Nat) (h : b64Keep c = true) : c < 128 := by
  unfold b64Keep b64IndexOf at h
  split_ifs at h <;> simp_all <;> omega

/-- The UTF-8 encoding of an ASCII string is the string itself. -/
theorem utf8Encode_ascii (s : PyStr) (h : ∀ c ∈ s, c < 128) :
    utf8Encode s = s := by
  match s with
  | [] => rfl
  | c :: cs =>
      have hc : c < 128 := h c (by simp)
      have e : utf8EncodeChar c = [c] := by simp [utf8EncodeChar, hc]
      show utf8EncodeChar c ++ utf8Encode cs = c :: cs
      rw [e, utf8Encode_ascii cs (fun x hx => h x (by simp [hx]))]
      rfl

theorem utf8Encode_ne_nil (s : PyStr) (h : s ≠ []) : utf8Encode s ≠ [] := by
  match s with
  | [] => exact absurd rfl h
  | c :: cs =>
      show utf8EncodeChar c ++ utf8Encode cs ≠ []
      simp [utf8EncodeChar_ne_nil c]

theorem b64encode_ne_nil (bs : List Nat) (h : bs ≠ []) : b64encode bs ≠ [] := by
  match bs with
  | [] => exact absurd rfl h
  | [a] => simp [b64encode]
  | [a, b] => simp [b64encode]
  | a :: b :: c :: rest => simp [b64encode]

/-! ## Envelope encryption (mock stack)

`MockMessageEncryption` in `mock_encryption.py` and `TestEncryptionService`
in `implementations/test.py` implement the same base64 scheme; they differ
only in the literal prefix of their fallback strings. The envelope is the
dict built by `encrypt_message`: `ciphertext`, `encrypted_data_key`, `iv`,
`salt` (no `tag` field in the mock scheme). `iv` depends on Python's
process-seeded `hash`, abstracted as a function parameter `pyHash`. -/

structure Envelope where
  ciphertext : PyStr
  encrypted_data_key : PyStr
  iv : PyStr
  salt : PyStr
deriving DecidableEq

/-- Decimal rendering of a natural number, as Python `str(n)`. -/
def natToStr (n : Nat) : PyStr := pyOfString (toString n)

namespace MockEnc

/-- `MockMessageEncryption.encrypt_message`: empty plaintext short-circuits
to an all-empty dict; otherwise base64 of the UTF-8 bytes plus mock fields. -/
def encrypt_message (pyHash : PyStr → Nat) (plaintext : PyStr) : Envelope :=
  if plaintext = [] then
    { ciphertext := [], encrypted_data_key := [], iv := [], salt := [] }
  else
    { ciphertext := b64encode (utf8Encode plaintext)
      encrypted_data_key := pyOfString "mock_key_" ++ natToStr plaintext.length
      iv := pyOfString "mock_iv_" ++ natToStr (pyHash plaintext % 1000)
      salt := pyOfString "mock_salt_" ++ natToStr plaintext.length }

/-- `MockMessageEncryption.decrypt_message`: empty/falsy ciphertext yields
`""`; otherwise base64-decode then UTF-8-decode, with any failure caught
and turned into the fallback string (never an exception). -/
def decrypt_message (e : Envelope) : PyStr :=
  if e.ciphertext = [] then []
  else
    match b64decode (utf8Encode e.ciphertext) with
    | some bs =>
        match utf8Decode bs with
        | some s => s
        | none => pyOfString "[Mock: Decrypted] " ++ e.ciphertext.take 50 ++
                  pyOfString "..."
    | none => pyOfString "[Mock: Decrypted] " ++ e.ciphertext.take 50 ++
              pyOfString "..."

end MockEnc

namespace TestEnc

/-- `TestEncryptionService.encrypt_message` (same scheme as the mock). -/
def encrypt_message (pyHash : PyStr → Nat) (plaintext : PyStr) : Envelope :=
  if plaintext = [] then
    { ciphertext := [], encrypted_data_key := [], iv := [], salt := [] }
  else
    { ciphertext := b64encode (utf8Encode plaintext)
      encrypted_data_key := pyOfString "mock_key_" ++ natToStr plaintext.length
      iv := pyOfString "mock_iv_" ++ natToStr (pyHash plaintext % 1000)
      salt := pyOfString "mock_salt_" ++ natToStr plaintext.length }

/-- `TestEncryptionService.decrypt_message` (same scheme as the mock). -/
def decrypt_message (e : Envelope) : PyStr :=
  if e.ciphertext = [] then []
  else
    match b64decode (utf8Encode e.ciphertext) with
    | some bs =>
        match utf8Decode bs with
        | some s => s
        | none => pyOfString "[Test: Decrypted] " ++ e.ciphertext.take 50 ++
                  pyOfString "..."
    | none => pyOfString "[Test: Decrypted] " ++ e.ciphertext.take 50 ++
              pyOfString "..."

end TestEnc

/-- The base64 text of the UTF-8 bytes of a valid plaintext decodes back to
that plaintext through both layers. -/
theorem b64_utf8_round_trip (s : PyStr) (hs : ValidStr s) :
    b64decode (utf8Encode (b64encode (utf8Encode s))) = some (utf8Encode s) ∧
      utf8Decode (utf8Encode s) = some s := by
  have hbytes : ∀ x ∈ utf8Encode s, x < 256 := utf8Encode_lt_256 s hs
  have hascii : ∀ c ∈ b64encode (utf8Encode s), c < 128 := fun c hc =>
    b64Keep_lt_128 c (b64encode_all_kept (utf8Encode s) hbytes c hc)
  constructor
  · rw [utf8Encode_ascii _ hascii]
    exact b64decode_b64encode _ hbytes
  · exact utf8Decode_utf8Encode s hs

/-- Round trip for the mock encryption service. -/
theorem mock_enc_round_trip (pyHash : PyStr → Nat) (s : PyStr) (hs : ValidStr s) :
    MockEnc.decrypt_message (MockEnc.encrypt_message pyHash s) = s := by
  by_cases h : s = []
  · subst h; rfl
  · obtain ⟨h1, h2⟩ := b64_utf8_round_trip s hs
    have hne : b64encode (utf8Encode s) ≠ [] :=
      b64encode_ne_nil _ (utf8Encode_ne_nil s h)
    unfold MockEnc.encrypt_message MockEnc.decrypt_message
    rw [if_neg h]
    simp only [if_neg hne, h1, h2]

/-- Round trip for the test encryption service. -/
theorem test_enc_round_trip (pyHash : PyStr → Nat) (s : PyStr) (hs : ValidStr s) :
    TestEnc.decrypt_message (TestEnc.encrypt_message pyHash s) = s := by
  by_cases h : s = []
  · subst h; rfl
  · obtain ⟨h1, h2⟩ := b64_utf8_round_trip s hs
    have hne : b64encode (utf8Encode s) ≠ [] :=
      b64encode_ne_nil _ (utf8Encode_ne_nil s h)
    unfold TestEnc.encrypt_message TestEnc.decrypt_message
    rw [if_neg h]
    simp only [if_neg hne, h1, h2]


/-! ## In-memory document store

`mock_firestore.py` (`MockDocument`, `MockQuery`, `MockCollection`) and
`implementations/test.py` (`TestDatabaseDocument`, `TestDatabaseQuery`,
`TestDatabaseCollection`). Document field values are modelled by `Value`;
a document's `_data` dict is an association list with unique keys. Both
`stream` implementations ignore the filter's `op` member entirely, so a
filter is embedded as its `(field, value)` pair. -/

/-- A Python value stored in a document field. -/
inductive Value where
  | vint (n : Int)
  | vstr (s : PyStr)
  | venv (e : Envelope)
  | vtime (t : Nat)
  | vnone
deriving DecidableEq

export Value (vint vstr venv vtime vnone)

/-- A stored document: `MockDocument` / `TestDatabaseDocument`. -/
structure Doc where
  id : String
  data : List (String × Value)
deriving DecidableEq

/-- Python dict read `data[k]` / `k in data`, as an association-list lookup. -/
def lookupV : List (String × Value) → String → Option Value
  | [], _ => none
  | (k', v) :: rest, k => if k' = k then some v else lookupV rest k

/-- A `FieldFilter` as consumed by `stream` (its `op` member is never read). -/
structure FieldFilter where
  field : String
  value : Value
deriving DecidableEq

/-- Filter check of `MockQuery.stream`: a document fails a filter only when
the field is present with a different value (absent fields pass). -/
def mockMatchesFilter (d : Doc) (f : FieldFilter) : Bool :=
  match lookupV d.data f.field with
  | some v => decide (v = f.value)
  | none => true

/-- Filter check of `TestDatabaseQuery._document_matches_filters`: identical
to the mock's, except a falsy (empty) field name makes the filter a no-op. -/
def testMatchesFilter (d : Doc) (f : FieldFilter) : Bool :=
  if f.field = "" then true
  else
    match lookupV d.data f.field with
    | some v => decide (v = f.value)
    | none => true

/-- Python slice `docs[:n]` for an `int` bound `n` (negative bounds count
from the end). -/
def pySliceTo (l : List Doc) (n : Int) : List Doc :=
  if 0 ≤ n then l.take n.toNat else l.take (l.length - (-n).toNat)

/-- The `if self._limit_value: filtered_docs = filtered_docs[:limit]` step
shared by both `stream` implementations: the truthiness test makes both
`None` and a zero limit impose no cap. -/
def applyLimit (lim : Option Int) (l : List Doc) : List Doc :=
  match lim with
  | some n => if n ≠ 0 then pySliceTo l n else l
  | none => l

/-- Query state of `MockQuery`: `_filters`, `_limit_value`,
`_start_after_doc`. -/
structure MockQuery where
  filters : List FieldFilter
  limitVal : Option Int
  startAfterDoc : Option Doc

/-- `MockQuery.stream` over the collection's document list: filters, then
the falsy-zero limit. The stored `_start_after_doc` is never consulted. -/
def mockStream (coll : List Doc) (q : MockQuery) : List Doc :=
  applyLimit q.limitVal
    (coll.filter (fun d => q.filters.all (fun f => mockMatchesFilter d f)))

/-- Query state of `TestDatabaseQuery`. -/
structure TestQuery where
  filters : List FieldFilter
  limitVal : Option Int
  startAfterDoc : Option Doc

/-- `TestDatabaseQuery._apply_start_after`: drop everything up to and
including the first document whose id matches the cursor document's id;
if no id matches, start from the beginning. -/
def applyStartAfter (sa : Option Doc) (docs : List Doc) : List Doc :=
  match sa with
  | none => docs
  | some sd =>
      match docs.findIdx? (fun d => d.id == sd.id) with
      | some i => docs.drop (i + 1)
      | none => docs

/-- `TestDatabaseQuery.stream`: filters, then `_apply_start_after`, then the
same falsy-zero limit as the mock. -/
def testStream (coll : List Doc) (q : TestQuery) : List Doc :=
  applyLimit q.limitVal
    (applyStartAfter q.startAfterDoc
      (coll.filter (fun d => q.filters.all (fun f => testMatchesFilter d f))))

/-- `MockCollection.document` / `TestDatabaseCollection.document`: return the
stored document with the given id, or a fresh document with empty data. -/
def documentLookup (coll : List Doc) (docId : String) : Doc :=
  match coll.find? (fun d => d.id == docId) with
  | some d => d
  | none => { id := docId, data := [] }

/-- `MockDocument.exists` / `TestDatabaseDocument.exists`: the property is
hard-coded to `True` on every document object. -/
def docExists (_ : Doc) : Bool := true


/-! ## Retrieval glue: `process_docs`

`main_simplified.process_docs`; the loop bodies of `main.get_messages` and
`main.process_messages_batch` are identical. The decryption service is
abstract (`dec`), returning `Except.error ()` when the Python call raises.
Reading `message_data["encrypted_text"]` on a document without that key
raises `KeyError`, which the same `except` catches. -/

/-- Python dict assignment `data[k] = v`: replace in place, or append. -/
def setKey : List (String × Value) → String → Value → List (String × Value)
  | [], k, v => [(k, v)]
  | (k', v') :: rest, k, v =>
      if k' = k then (k, v) :: rest else (k', v') :: setKey rest k v

/-- Python dict deletion `del data[k]` (keys are unique in a dict). -/
def delKey : List (String × Value) → String → List (String × Value)
  | [], _ => []
  | (k', v') :: rest, k => if k' = k then rest else (k', v') :: delKey rest k

/-- The body of the `try:` up to the decryption call: subscripting
`encrypted_text` (possible `KeyError`) then the decryption service. -/
def tryDecrypt (dec : Value → Except Unit PyStr) (data : List (String × Value)) :
    Except Unit PyStr :=
  match lookupV data "encrypted_text" with
  | some v => dec v
  | none => Except.error ()

/-- One response record `{"id": doc.id, **message_data}`. -/
structure RespRecord where
  id : String
  data : List (String × Value)
deriving DecidableEq

/-- One iteration of the `process_docs` loop: on success, set `text` to the
plaintext and delete `encrypted_text`; on any exception, set `text` to the
`"[Encrypted]"` marker (the `del` was not reached, so `encrypted_text`
stays). -/
def processDoc (dec : Value → Except Unit PyStr) (d : Doc) : RespRecord :=
  match tryDecrypt dec d.data with
  | Except.ok t =>
      { id := d.id, data := delKey (setKey d.data "text" (vstr t)) "encrypted_text" }
  | Except.error _ =>
      { id := d.id,
        data := setKey d.data "text" (vstr (pyOfString "[Encrypted]")) }

/-- `process_docs`: the loop appends one record per document and tracks the
last document seen, returning `(messages, last_doc)`. -/
def process_docs (dec : Value → Except Unit PyStr) (docs : List Doc) :
    List RespRecord × Option Doc :=
  (docs.map (processDoc dec), docs.getLast?)

theorem lookupV_setKey_self (data : List (String × Value)) (k : String) (v : Value) :
    lookupV (setKey data k v) k = some v := by
  match data with
  | [] => simp [setKey, lookupV]
  | (k', v') :: rest =>
      by_cases h : k' = k
      · simp [setKey, lookupV, h]
      · simp only [setKey, if_neg h, lookupV]
        exact lookupV_setKey_self rest k v

theorem lookupV_setKey_other (data : List (String × Value)) (k k' : String)
    (v : Value) (h : k' ≠ k) :
    lookupV (setKey data k v) k' = lookupV data k' := by
  match data with
  | [] => simp [setKey, lookupV, Ne.symm h]
  | (k0, v0) :: rest =>
      by_cases h0 : k0 = k
      · subst h0
        simp [setKey, lookupV, Ne.symm h]
      · simp only [setKey, if_neg h0, lookupV]
        by_cases h1 : k0 = k'
        · simp [h1]
        · rw [if_neg h1, if_neg h1]
          exact lookupV_setKey_other rest k k' v h

theorem lookupV_delKey_other (data : List (String × Value)) (k k' : String)
    (h : k' ≠ k) :
    lookupV (delKey data k) k' = lookupV data k' := by
  match data with
  | [] => simp [delKey]
  | (k0, v0) :: rest =>
      by_cases h0 : k0 = k
      · subst h0
        simp [delKey, lookupV, Ne.symm h]
      · simp only [delKey, if_neg h0, lookupV]
        by_cases h1 : k0 = k'
        · simp [h1]
        · rw [if_neg h1, if_neg h1]
          exact lookupV_delKey_other rest k k' h

theorem lookupV_eq_none_of_not_mem (data : List (String × Value)) (k : String)
    (h : k ∉ data.map Prod.fst) : lookupV data k = none := by
  match data with
  | [] => rfl
  | (k0, v0) :: rest =>
      simp only [List.map_cons, List.mem_cons] at h
      push_neg at h
      simp only [lookupV]
      rw [if_neg (Ne.symm h.1)]
      exact lookupV_eq_none_of_not_mem rest k h.2

theorem mem_keys_setKey (data : List (String × Value)) (k x : String) (v : Value)
    (hx : x ∈ (setKey data k v).map Prod.fst) :
    x ∈ data.map Prod.fst ∨ x = k := by
  match data with
  | [] => simp [setKey] at hx; exact Or.inr hx
  | (k0, v0) :: rest =>
      by_cases h0 : k0 = k
      · subst h0
        simp [setKey] at hx ⊢
        tauto
      · simp only [setKey, if_neg h0, List.map_cons, List.mem_cons] at hx ⊢
        rcases hx with h | h
        · exact Or.inl (Or.inl h)
        · rcases mem_keys_setKey rest k x v h with h' | h'
          · exact Or.inl (Or.inr h')
          · exact Or.inr h'

theorem nodup_keys_setKey (data : List (String × Value)) (k : String) (v : Value)
    (h : (data.map Prod.fst).Nodup) : ((setKey data k v).map Prod.fst).Nodup := by
  match data with
  | [] => simp [setKey]
  | (k0, v0) :: rest =>
      simp only [List.map_cons, List.nodup_cons] at h
      by_cases h0 : k0 = k
      · subst h0
        simpa [setKey] using h
      · simp only [setKey, if_neg h0, List.map_cons, List.nodup_cons]
        refine ⟨fun hmem => ?_, nodup_keys_setKey rest k v h.2⟩
        rcases mem_keys_setKey rest k k0 v hmem with h' | h'
        · exact h.1 h'
        · exact h0 h'

theorem lookupV_delKey_self (data : List (String × Value)) (k : String)
    (h : (data.map Prod.fst).Nodup) : lookupV (delKey data k) k = none := by
  match data with
  | [] => rfl
  | (k0, v0) :: rest =>
      simp only [List.map_cons, List.nodup_cons] at h
      by_cases h0 : k0 = k
      · subst h0
        simp only [delKey, if_pos rfl]
        exact lookupV_eq_none_of_not_mem rest k0 h.1
      · simp only [delKey, if_neg h0, lookupV]
        exact lookupV_delKey_self rest k h.2


/-! ## Lemmas about the stream pipelines -/

theorem mem_of_mem_pySliceTo (l : List Doc) (n : Int) (d : Doc)
    (h : d ∈ pySliceTo l n) : d ∈ l := by
  unfold pySliceTo at h
  split_ifs at h <;> exact List.take_subset _ _ h

theorem mem_of_mem_applyLimit (lim : Option Int) (l : List Doc) (d : Doc)
    (h : d ∈ applyLimit lim l) : d ∈ l := by
  match lim with
  | none => exact h
  | some n =>
      simp only [applyLimit] at h
      split_ifs at h
      · exact mem_of_mem_pySliceTo l n d h
      · exact h

theorem length_applyLimit_le (n : Int) (hn : 0 < n) (l : List Doc) :
    (applyLimit (some n) l).length ≤ n.toNat := by
  simp only [applyLimit]
  rw [if_pos (by omega : (n : Int) ≠ 0)]
  unfold pySliceTo
  rw [if_pos (by omega : (0 : Int) ≤ n)]
  exact List.length_take_le _ _

theorem applyLimit_zero (l : List Doc) : applyLimit (some 0) l = l := by
  simp [applyLimit]

theorem mem_of_mem_applyStartAfter (sa : Option Doc) (l : List Doc) (d : Doc)
    (h : d ∈ applyStartAfter sa l) : d ∈ l := by
  match sa with
  | none => exact h
  | some sd =>
      simp only [applyStartAfter] at h
      cases hf : l.findIdx? (fun x => x.id == sd.id) with
      | none => rw [hf] at h; exact h
      | some i => rw [hf] at h; exact List.drop_subset _ _ h

theorem mockStream_matches (coll : List Doc) (q : MockQuery) (d : Doc)
    (h : d ∈ mockStream coll q) :
    d ∈ coll ∧ ∀ f ∈ q.filters, mockMatchesFilter d f = true := by
  have h1 := mem_of_mem_applyLimit q.limitVal _ d h
  have h2 := List.mem_filter.mp h1
  exact ⟨h2.1, fun f hf => List.all_eq_true.mp h2.2 f hf⟩

theorem testStream_matches (coll : List Doc) (q : TestQuery) (d : Doc)
    (h : d ∈ testStream coll q) :
    d ∈ coll ∧ ∀ f ∈ q.filters, testMatchesFilter d f = true := by
  have h1 := mem_of_mem_applyLimit q.limitVal _ d h
  have h2 := mem_of_mem_applyStartAfter q.startAfterDoc _ d h1
  have h3 := List.mem_filter.mp h2
  exact ⟨h3.1, fun f hf => List.all_eq_true.mp h3.2 f hf⟩


/-! ## Claim theorems -/

/-- Claim C1: for every UTF-8 string `s` (every list of Unicode scalar
values), including the empty string and strings with non-ASCII code points,
decrypting the envelope produced by `encrypt_message s` with
`decrypt_message` returns exactly `s` — for both the mock and the test
encryption services, whatever the process hash seed. -/
theorem claim_C1 (pyHash : PyStr → Nat) (s : PyStr) (hs : ValidStr s) :
    MockEnc.decrypt_message (MockEnc.encrypt_message pyHash s) = s ∧
    TestEnc.decrypt_message (TestEnc.encrypt_message pyHash s) = s :=
  ⟨mock_enc_round_trip pyHash s hs, test_enc_round_trip pyHash s hs⟩

/-- Witness for C1 at the non-ASCII string "hé€😀" (code points
104, 233, 8364, 128512), covering 1-, 2-, 3- and 4-byte UTF-8 forms. -/
theorem claim_C1_witness :
    ValidStr [104, 233, 8364, 128512] ∧
    MockEnc.decrypt_message
      (MockEnc.encrypt_message (fun _ => 0) [104, 233, 8364, 128512])
      = [104, 233, 8364, 128512] :=
  ⟨by decide, (claim_C1 (fun _ => 0) [104, 233, 8364, 128512] (by decide)).1⟩

/-- Claim C2 (failing behaviour, evaluated): `MockQuery.stream` ignores the
stored `_start_after_doc`, so the second page of a cursor walk repeats the
first record and never reaches the second; the parallel
`TestDatabaseQuery.stream` applies the cursor and returns the second
record, as pagination requires. -/
theorem claim_C2 :
    mockStream [⟨"msg_0", [("chat_id", vint 1)]⟩, ⟨"msg_1", [("chat_id", vint 1)]⟩]
      { filters := [], limitVal := some 1, startAfterDoc := none }
      = [⟨"msg_0", [("chat_id", vint 1)]⟩] ∧
    mockStream [⟨"msg_0", [("chat_id", vint 1)]⟩, ⟨"msg_1", [("chat_id", vint 1)]⟩]
      { filters := [], limitVal := some 1,
        startAfterDoc := some ⟨"msg_0", [("chat_id", vint 1)]⟩ }
      = [⟨"msg_0", [("chat_id", vint 1)]⟩] ∧
    testStream [⟨"msg_0", [("chat_id", vint 1)]⟩, ⟨"msg_1", [("chat_id", vint 1)]⟩]
      { filters := [], limitVal := some 1,
        startAfterDoc := some ⟨"msg_0", [("chat_id", vint 1)]⟩ }
      = [⟨"msg_1", [("chat_id", vint 1)]⟩] := by
  decide

/-- Claim C3 (amended): the test implementation's `decrypt_message` performs
no integrity verification and raises nothing: whenever the (nonempty)
ciphertext of an envelope is base64 text whose decoded bytes are valid
UTF-8, the decoded string is returned as the plaintext — whether or not the
envelope was tampered with. -/
theorem claim_C3 (e : Envelope) (bs : List Nat) (s : PyStr)
    (hne : ¬(e.ciphertext = []))
    (h1 : b64decode (utf8Encode e.ciphertext) = some bs)
    (h2 : utf8Decode bs = some s) :
    TestEnc.decrypt_message e = s := by
  unfold TestEnc.decrypt_message
  rw [if_neg hne]
  simp only [h1, h2]

/-- Witness for C3: decrypting the tampered ciphertext "cGVsbG8=" yields
"pello" (no failure). -/
theorem claim_C3_witness :
    TestEnc.decrypt_message ⟨[99, 71, 86, 115, 98, 71, 56, 61], [], [], []⟩
      = [112, 101, 108, 108, 111] :=
  claim_C3 ⟨[99, 71, 86, 115, 98, 71, 56, 61], [], [], []⟩
    [112, 101, 108, 108, 111] [112, 101, 108, 108, 111]
    (by decide) (by decide) (by decide)

/-- Counterexample to C3 as stated: encrypting "hello" yields ciphertext
"aGVsbG8=" (first character 97); flipping one bit of that character
(97 xor 2 = 99) yields "cGVsbG8=", and decrypting the modified envelope
does not fail with any integrity error — it silently returns the corrupted
plaintext "pello". -/
theorem claim_C3_counterexample :
    (TestEnc.encrypt_message (fun _ => 0) [104, 101, 108, 108, 111]).ciphertext
      = 97 :: [71, 86, 115, 98, 71, 56, 61] ∧
    (97 : Nat) ^^^ 2 = 99 ∧
    TestEnc.decrypt_message ⟨99 :: [71, 86, 115, 98, 71, 56, 61], [], [], []⟩
      = [112, 101, 108, 108, 111] ∧
    [112, 101, 108, 108, 111] ≠ [104, 101, 108, 108, 111] := by
  decide

/-- Claim C4 (amended): a streamed record satisfies every equality filter in
the weak sense actually implemented: if the record possesses the filtered
field then its value equals the filter's value (records lacking the field
pass the filter); several filters conjoin. For `TestDatabaseQuery` a filter
with a falsy (empty) field name is ignored entirely. -/
theorem claim_C4 (coll : List Doc) (q : MockQuery) (tq : TestQuery) (d e : Doc)
    (hd : d ∈ mockStream coll q) (he : e ∈ testStream coll tq) :
    (∀ f ∈ q.filters, ∀ v, lookupV d.data f.field = some v → v = f.value) ∧
    (∀ f ∈ tq.filters, f.field ≠ "" →
      ∀ v, lookupV e.data f.field = some v → v = f.value) := by
  constructor
  · intro f hf v hv
    have hm := (mockStream_matches coll q d hd).2 f hf
    unfold mockMatchesFilter at hm
    rw [hv] at hm
    exact of_decide_eq_true hm
  · intro f hf hne v hv
    have hm := (testStream_matches coll tq e he).2 f hf
    unfold testMatchesFilter at hm
    rw [if_neg hne, hv] at hm
    exact of_decide_eq_true hm

/-- Witness for C4: a two-filter query (`chat_id == 5`, `user_id == 7`)
streams the matching record, and the theorem applies to it. -/
theorem claim_C4_witness :
    mockStream
        [⟨"a", [("chat_id", vint 5), ("user_id", vint 7)]⟩,
         ⟨"b", [("chat_id", vint 6)]⟩]
        { filters := [⟨"chat_id", vint 5⟩, ⟨"user_id", vint 7⟩],
          limitVal := none, startAfterDoc := none }
      = [⟨"a", [("chat_id", vint 5), ("user_id", vint 7)]⟩] ∧
    vint 5 = vint 5 := by
  refine ⟨by decide, ?_⟩
  exact (claim_C4
    [⟨"a", [("chat_id", vint 5), ("user_id", vint 7)]⟩, ⟨"b", [("chat_id", vint 6)]⟩]
    { filters := [⟨"chat_id", vint 5⟩, ⟨"user_id", vint 7⟩],
      limitVal := none, startAfterDoc := none }
    { filters := [], limitVal := none, startAfterDoc := none }
    ⟨"a", [("chat_id", vint 5), ("user_id", vint 7)]⟩
    ⟨"a", [("chat_id", vint 5), ("user_id", vint 7)]⟩
    (by decide) (by decide)).1 ⟨"chat_id", vint 5⟩ (by decide) (vint 5) (by decide)

/-- Counterexample to C4 as stated: with an equality filter `chat_id == 5`,
`MockQuery.stream` still returns a record that has no `chat_id` field at
all, so it does not return only records whose `chat_id` equals 5. -/
theorem claim_C4_counterexample :
    mockStream [⟨"d0", [("user_id", vint 1)]⟩]
      { filters := [⟨"chat_id", vint 5⟩], limitVal := none, startAfterDoc := none }
      = [⟨"d0", [("user_id", vint 1)]⟩] ∧
    lookupV [("user_id", vint 1)] "chat_id" = none := by
  decide

/-- Claim C5: a decryption failure on one record does not abort
`process_docs`: every document still yields a record (the page has one
record per streamed document), and a record whose decryption raised gets
its `text` field set to the "[Encrypted]" marker. -/
theorem claim_C5 (dec : Value → Except Unit PyStr) (docs : List Doc) :
    (process_docs dec docs).1.length = docs.length ∧
    ∀ d ∈ docs, tryDecrypt dec d.data = Except.error () →
      processDoc dec d ∈ (process_docs dec docs).1 ∧
      lookupV (processDoc dec d).data "text"
        = some (vstr (pyOfString "[Encrypted]")) := by
  constructor
  · simp [process_docs]
  · intro d hd herr
    constructor
    · exact List.mem_map.mpr ⟨d, hd, rfl⟩
    · unfold processDoc
      rw [herr]
      exact lookupV_setKey_self d.data "text" _

/-- Witness for C5: a one-document batch whose decryption always raises
still produces a full page with the redaction marker. -/
theorem claim_C5_witness :
    (process_docs (fun _ => Except.error ())
        [⟨"m0", [("encrypted_text", vstr [])]⟩]).1.length = 1 ∧
    lookupV (processDoc (fun _ => Except.error ())
        ⟨"m0", [("encrypted_text", vstr [])]⟩).data "text"
      = some (vstr (pyOfString "[Encrypted]")) :=
  ⟨(claim_C5 (fun _ => Except.error ()) [⟨"m0", [("encrypted_text", vstr [])]⟩]).1,
   ((claim_C5 (fun _ => Except.error ()) [⟨"m0", [("encrypted_text", vstr [])]⟩]).2
      ⟨"m0", [("encrypted_text", vstr [])]⟩ (by decide) rfl).2⟩

/-- Claim C6 (amended): a successfully decrypted record has `encrypted_text`
removed and replaced by the decrypted `text` field; but a record whose
decryption failed keeps its `encrypted_text` field unchanged next to the
redacted `text` field, because the `del` statement sits inside the `try:`
after the decryption call. -/
theorem claim_C6 (dec : Value → Except Unit PyStr) (d : Doc)
    (hnd : (d.data.map Prod.fst).Nodup) :
    (∀ t, tryDecrypt dec d.data = Except.ok t →
        lookupV (processDoc dec d).data "encrypted_text" = none ∧
        lookupV (processDoc dec d).data "text" = some (vstr t)) ∧
    (tryDecrypt dec d.data = Except.error () →
        lookupV (processDoc dec d).data "encrypted_text"
          = lookupV d.data "encrypted_text" ∧
        lookupV (processDoc dec d).data "text"
          = some (vstr (pyOfString "[Encrypted]"))) := by
  constructor
  · intro t ht
    unfold processDoc
    rw [ht]
    constructor
    · exact lookupV_delKey_self _ _ (nodup_keys_setKey _ _ _ hnd)
    · rw [lookupV_delKey_other _ "encrypted_text" "text" (by decide)]
      exact lookupV_setKey_self _ _ _
  · intro herr
    unfold processDoc
    rw [herr]
    constructor
    · exact lookupV_setKey_other _ "text" "encrypted_text" _ (by decide)
    · exact lookupV_setKey_self _ _ _

/-- Witness for C6: on a successful decryption the response record has no
`encrypted_text` and carries the plaintext under `text`. -/
theorem claim_C6_witness :
    lookupV (processDoc (fun _ => Except.ok [104])
        ⟨"m0", [("encrypted_text", vstr []), ("chat_id", vint 1)]⟩).data
      "encrypted_text" = none ∧
    lookupV (processDoc (fun _ => Except.ok [104])
        ⟨"m0", [("encrypted_text", vstr []), ("chat_id", vint 1)]⟩).data
      "text" = some (vstr [104]) :=
  (claim_C6 (fun _ => Except.ok [104])
      ⟨"m0", [("encrypted_text", vstr []), ("chat_id", vint 1)]⟩
      (by decide)).1 [104] rfl

/-- Counterexample to C6 as stated: when decryption raises, the redacted
record still contains its `encrypted_text` field — the field is not removed
on the failure path. -/
theorem claim_C6_counterexample :
    lookupV (processDoc (fun _ => Except.error ())
        ⟨"m0", [("encrypted_text", venv ⟨[97], [], [], []⟩)]⟩).data
      "encrypted_text" = some (venv ⟨[97], [], [], []⟩) ∧
    lookupV (processDoc (fun _ => Except.error ())
        ⟨"m0", [("encrypted_text", venv ⟨[97], [], [], []⟩)]⟩).data
      "text" = some (vstr (pyOfString "[Encrypted]")) := by
  decide

/-- Claim C7 (failing behaviour, evaluated): `encrypt_message` applied to
the empty string short-circuits to an envelope whose `ciphertext`,
`encrypted_data_key`, `iv` and `salt` are all empty, in both the mock and
the test encryption services — not a fully populated envelope. -/
theorem claim_C7 :
    MockEnc.encrypt_message (fun _ => 0) []
      = { ciphertext := [], encrypted_data_key := [], iv := [], salt := [] } ∧
    TestEnc.encrypt_message (fun _ => 0) []
      = { ciphertext := [], encrypted_data_key := [], iv := [], salt := [] } :=
  ⟨rfl, rfl⟩

/-- Claim C8 (amended): the mock scheme is deterministic — two calls to
`encrypt_message` on the same plaintext within one process (same hash seed)
return identical envelopes — and the envelope decrypts back to the
plaintext. -/
theorem claim_C8 (pyHash : PyStr → Nat) (s : PyStr) (hs : ValidStr s) :
    MockEnc.encrypt_message pyHash s = MockEnc.encrypt_message pyHash s ∧
    MockEnc.decrypt_message (MockEnc.encrypt_message pyHash s) = s :=
  ⟨rfl, mock_enc_round_trip pyHash s hs⟩

/-- Witness for C8 at the plaintext "hello". -/
theorem claim_C8_witness :
    ValidStr [104, 101, 108, 108, 111] ∧
    MockEnc.decrypt_message
      (MockEnc.encrypt_message (fun _ => 0) [104, 101, 108, 108, 111])
      = [104, 101, 108, 108, 111] :=
  ⟨by decide, (claim_C8 (fun _ => 0) [104, 101, 108, 108, 111] (by decide)).2⟩

/-- Counterexample to C8 as stated: two calls to the mock `encrypt_message`
on "hello" return envelopes with equal `iv`, equal `ciphertext` and equal
`encrypted_data_key` — they do not differ in any of the three fields. -/
theorem claim_C8_counterexample :
    (MockEnc.encrypt_message (fun _ => 0) [104, 101, 108, 108, 111]).iv
      = (MockEnc.encrypt_message (fun _ => 0) [104, 101, 108, 108, 111]).iv ∧
    (MockEnc.encrypt_message (fun _ => 0) [104, 101, 108, 108, 111]).ciphertext
      = (MockEnc.encrypt_message (fun _ => 0) [104, 101, 108, 108, 111]).ciphertext ∧
    (MockEnc.encrypt_message (fun _ => 0) [104, 101, 108, 108, 111]).encrypted_data_key
      = (MockEnc.encrypt_message (fun _ => 0) [104, 101, 108, 108, 111]).encrypted_data_key :=
  ⟨rfl, rfl, rfl⟩

/-- Claim C9 (amended): `limit(n)` caps the number of streamed records at
`n` for every positive `n`; but `limit(0)` is falsy in the
`if self._limit_value:` test and therefore imposes no cap at all — the
query behaves exactly as if no limit had been set. -/
theorem claim_C9 (coll : List Doc) (q : MockQuery) (n : Int) :
    (q.limitVal = some n → 0 < n → (mockStream coll q).length ≤ n.toNat) ∧
    (q.limitVal = some 0 →
      mockStream coll q = mockStream coll { q with limitVal := none }) := by
  constructor
  · intro hq hn
    unfold mockStream
    rw [hq]
    exact length_applyLimit_le n hn _
  · intro hq
    unfold mockStream
    rw [hq]
    exact applyLimit_zero _

/-- Witness for C9: a three-document collection with `limit(2)` streams at
most two records. -/
theorem claim_C9_witness :
    (mockStream [⟨"a", []⟩, ⟨"b", []⟩, ⟨"c", []⟩]
        { filters := [], limitVal := some 2, startAfterDoc := none }).length
      ≤ (2 : Int).toNat :=
  (claim_C9 [⟨"a", []⟩, ⟨"b", []⟩, ⟨"c", []⟩]
      { filters := [], limitVal := some 2, startAfterDoc := none } 2).1
    rfl (by decide)

/-- Counterexample to C9 as stated: `limit(0)` does not yield an empty
result — a one-document collection streams its document anyway. -/
theorem claim_C9_counterexample :
    mockStream [⟨"d0", []⟩]
      { filters := [], limitVal := some 0, startAfterDoc := none }
      = [⟨"d0", []⟩] := by
  decide

/-- Claim C10 (failing behaviour, evaluated): the point lookup for an id
with no stored record returns a fabricated document with empty data whose
`exists` property is `True` — there is no absent indication (the property
is hard-coded to `True` on every document object). -/
theorem claim_C10 :
    documentLookup [] "missing" = { id := "missing", data := [] } ∧
    docExists (documentLookup [] "missing") = true ∧
    documentLookup [⟨"msg_0", [("chat_id", vint 1)]⟩] "missing"
      = { id := "missing", data := [] } ∧
    docExists (documentLookup [⟨"msg_0", [("chat_id", vint 1)]⟩] "missing")
      = true := by
  decide

end TG
